import Mathlib

/-!
Shallow embedding of the taskwarrior-reminders-sync core:
the mapping store (src/tw_reminders/sync_state.py), the remote-to-local
reconciler (src/tw_reminders/sync_from_reminders.py) and the local-to-remote
hook propagators (src/tw_reminders/hooks/on_add.py, on_modify.py).

Modelling conventions:
- Python dicts keyed by uuid (the "mappings" table, the task store) are
  insertion-ordered association lists; upsert replaces in place, insert
  appends at the end, exactly like a Python dict.
- JSON string/number fields that may be absent are Option values; Python
  truthiness of an optional string field ("" and absent are falsy) is the
  function truthy below.
- ISO timestamps are kept as strings; Python string comparison (<=) is
  pyStrLe, lexicographic on the character sequence.
- datetime parsing (parse_date) is modelled as the identity on non-empty
  strings; the source returns None for empty input.  Parsed date values are
  only carried, never inspected, by the functions verified here.
- Fresh Taskwarrior uuids assigned at task creation are supplied by the
  environment as a list (field fresh of Env); each creation consumes one.
- Subprocess calls to the Swift agent are modelled by their observable
  outcome (exit status / returned identifier) passed in as a parameter, and
  by an explicit list of emitted RemoteCall values.
-/

namespace TWSync

/-- Python string comparison (a <= b), lexicographic on characters. -/
def strLeChars : List Char → List Char → Bool
  | [], _ => true
  | _ :: _, [] => false
  | a :: as, b :: bs => if a < b then true else if a = b then strLeChars as bs else false

/-- Python a <= b on strings. -/
def pyStrLe (a b : String) : Bool := strLeChars a.data b.data

/-- Python truthiness of an optional string field: absent and "" are falsy. -/
def truthy : Option String → Bool
  | none => false
  | some s => !(s == "")

/-- One entry of the sync-state "mappings" table (class SyncMapping). -/
structure SyncMapping where
  uuid : String
  reminder_id : String
  tw_modified : String
  reminder_modified : String
deriving DecidableEq

/-- Python dict update mappings[m.uuid] = m: replace in place, else append. -/
def set_mapping : List SyncMapping → SyncMapping → List SyncMapping
  | [], m => [m]
  | x :: rest, m => if x.uuid == m.uuid then m :: rest else x :: set_mapping rest m

/-- SyncState.remove_mapping: delete the entry keyed by uuid (no-op if absent). -/
def remove_mapping (ms : List SyncMapping) (uuid : String) : List SyncMapping :=
  ms.filter (fun m => !(m.uuid == uuid))

/-- SyncState.get_by_uuid. -/
def get_by_uuid (ms : List SyncMapping) (uuid : String) : Option SyncMapping :=
  ms.find? (fun m => m.uuid == uuid)

/-- SyncState.get_by_reminder_id: first entry in table order with that id. -/
def get_by_reminder_id (ms : List SyncMapping) (rid : String) : Option SyncMapping :=
  ms.find? (fun m => m.reminder_id == rid)

/-- A remote record as exported by the Swift agent (a JSON object). -/
structure Reminder where
  identifier : String
  title : String
  list : Option String
  priority : Option Nat
  dueDate : Option String
  isCompleted : Bool
  modificationDate : Option String
  notes : Option String
  hasLocation : Bool
  locationName : Option String
  locationLatitude : Option String
  locationLongitude : Option String
deriving DecidableEq

/-- A Taskwarrior task, restricted to the fields the sync reads or writes.
The annots field models the task's annotation list. -/
structure Task where
  uuid : String
  description : String
  project : Option String
  due : Option String
  priority : Option String
  annots : List String
  status : String
  modified : Option String
  reminder_id : Option String
  loc : Option String
  location_lat : Option String
  location_lon : Option String
deriving DecidableEq

/-- tw.tasks.get(uuid=u): the task with that uuid, if present. -/
def tw_get (tw : List Task) (uuid : String) : Option Task :=
  tw.find? (fun t => t.uuid == uuid)

/-- task.save(): replace the stored task with the same uuid, else append. -/
def tw_save : List Task → Task → List Task
  | [], t => [t]
  | x :: rest, t => if x.uuid == t.uuid then t :: rest else x :: tw_save rest t

/-- map_priority_from_reminder: Reminder priority (1/5/9) to Taskwarrior (H/M/L). -/
def map_priority_from_reminder (priority : Nat) : Option String :=
  if priority = 1 then some "H"
  else if priority = 5 then some "M"
  else if priority = 9 then some "L"
  else none

/-- parse_date: None/"" parse to no date; a non-empty ISO string is kept as is
(the source converts it to a datetime, which the verified code only stores). -/
def parse_date (iso_string : Option String) : Option String :=
  match iso_string with
  | none => none
  | some s => if s == "" then none else some s

/-- The state a reconciliation run touches: the Taskwarrior store, the
mappings table, and the supply of fresh uuids for tasks created by the run. -/
structure Env where
  tw : List Task
  ms : List SyncMapping
  fresh : List String
deriving DecidableEq

/-- The new-task construction of sync_reminder_to_task (the no-mapping branch):
fields set from the reminder, reminder_id stored as a UDA. -/
def new_reminder_task (fresh_uuid : String) (r : Reminder) : Task :=
  { uuid := fresh_uuid
    description := r.title
    project := if r.list == some "Reminders" then none else r.list
    due := parse_date r.dueDate
    priority := map_priority_from_reminder (r.priority.getD 0)
    annots := if truthy r.notes then [r.notes.getD ""] else []
    status := "pending"
    modified := none
    reminder_id := some r.identifier
    loc := if r.hasLocation && truthy r.locationName then r.locationName else none
    location_lat := if r.hasLocation && truthy r.locationLatitude then r.locationLatitude else none
    location_lon := if r.hasLocation && truthy r.locationLongitude then r.locationLongitude else none }

/-- update_task_from_reminder: overwrite the synced fields of an existing task. -/
def update_task_from_reminder (task : Task) (r : Reminder) : Task :=
  let t1 := { task with description := r.title }
  let t2 :=
    match r.list with
    | some s =>
        if !(s == "") && !(s == "Reminders") then { t1 with project := some s }
        else if s == "Reminders" then { t1 with project := none }
        else t1
    | none => t1
  let t3 := { t2 with due := parse_date r.dueDate }
  let t4 := { t3 with priority := map_priority_from_reminder (r.priority.getD 0) }
  if r.isCompleted && !(t4.status == "completed") then { t4 with status := "completed" }
  else if !r.isCompleted && t4.status == "completed" then { t4 with status := "pending" }
  else t4

/-- sync_reminder_to_task: sync a single remote record into the local store. -/
def sync_reminder_to_task (r : Reminder) (env : Env) : Env :=
  match get_by_reminder_id env.ms r.identifier with
  | some mapping =>
      match tw_get env.tw mapping.uuid with
      | none =>
          { env with ms := remove_mapping env.ms mapping.uuid }
      | some task =>
          let reminder_modified := r.modificationDate.getD ""
          if pyStrLe reminder_modified mapping.reminder_modified then env
          else
            let task' := update_task_from_reminder task r
            let mapping' := { mapping with
              reminder_modified := reminder_modified
              tw_modified := task'.modified.getD "" }
            { env with tw := tw_save env.tw task', ms := set_mapping env.ms mapping' }
  | none =>
      if r.isCompleted then env
      else
        let u := env.fresh.headD ""
        let task := new_reminder_task u r
        { env with
          tw := tw_save env.tw task
          fresh := env.fresh.tail
          ms := set_mapping env.ms
            { uuid := task.uuid
              reminder_id := r.identifier
              tw_modified := task.modified.getD ""
              reminder_modified := r.modificationDate.getD "" } }

/-- One iteration of the loop in check_deleted_reminders. -/
def sweep_mapping (ids : List String) (env : Env) (m : SyncMapping) : Env :=
  if ids.contains m.reminder_id then env
  else
    let tw' :=
      match tw_get env.tw m.uuid with
      | some task =>
          if !(task.status == "deleted") then tw_save env.tw { task with status := "deleted" }
          else env.tw
      | none => env.tw
    { env with tw := tw', ms := remove_mapping env.ms m.uuid }

/-- The loop of check_deleted_reminders over the snapshot of all_mappings(). -/
def check_deleted_aux (ids : List String) : List SyncMapping → Env → Env
  | [], env => env
  | m :: rest, env => check_deleted_aux ids rest (sweep_mapping ids env m)

/-- check_deleted_reminders: mappings whose reminder vanished from the
snapshot are removed, their tasks (if present and not deleted) deleted. -/
def check_deleted_reminders (rs : List Reminder) (env : Env) : Env :=
  check_deleted_aux (rs.map (fun r => r.identifier)) env.ms env

/-- The per-record loop of main. -/
def sync_all : List Reminder → Env → Env
  | [], env => env
  | r :: rest, env => sync_all rest (sync_reminder_to_task r env)

/-- One reconciliation pass of main: per-record sync, then the deletion sweep. -/
def reconcile (rs : List Reminder) (env : Env) : Env :=
  check_deleted_reminders rs (sync_all rs env)

/-- fetch_reminders: a non-zero exit status from the export command yields an
empty snapshot (the error is only logged). -/
def fetch_reminders (exitCode : Nat) (output : List Reminder) : List Reminder :=
  if exitCode ≠ 0 then [] else output

/-- The fetch-then-reconcile body of main (lock handling aside). -/
def run_main (exitCode : Nat) (output : List Reminder) (env : Env) : Env :=
  let reminders := fetch_reminders exitCode output
  check_deleted_reminders reminders (sync_all reminders env)

/-- One mutating operation on the mappings table of SyncState. -/
inductive StateOp where
  | set (m : SyncMapping)
  | remove (uuid : String)
deriving DecidableEq

/-- Apply one SyncState mutation. -/
def apply_op (ms : List SyncMapping) : StateOp → List SyncMapping
  | .set m => set_mapping ms m
  | .remove u => remove_mapping ms u

/-- The mappings table reached from the empty table by a sequence of
set_mapping / remove_mapping calls. -/
def run_ops (ops : List StateOp) : List SyncMapping :=
  ops.foldl apply_op []

/-- The sync-state file as the loader sees it: missing, unparseable JSON, or
a parsed object (with or without a "version" key). -/
inductive StateFileContent where
  | missing
  | malformed
  | parsed (hasVersion : Bool) (mappings : List SyncMapping)
deriving DecidableEq

/-- The parsed JSON object (the fields SyncState._load inspects). -/
structure RawState where
  hasVersion : Bool
  mappings : List SyncMapping
deriving DecidableEq

/-- load_json: a missing file is an empty dict; json.loads on a malformed
file raises (modelled as an error result that aborts the run). -/
def load_json : StateFileContent → Except String RawState
  | .missing => .ok { hasVersion := false, mappings := [] }
  | .malformed => .error "malformed"
  | .parsed v m => .ok { hasVersion := v, mappings := m }

/-- The loaded mapping table. -/
structure StateData where
  mappings : List SyncMapping
deriving DecidableEq

/-- SyncState._load: load_json, then default to an empty table when the
"version" key is absent. -/
def state_load (file : StateFileContent) : Except String StateData :=
  match load_json file with
  | .error e => .error e
  | .ok raw =>
      if raw.hasVersion then .ok { mappings := raw.mappings }
      else .ok { mappings := [] }

/-- A task as the Taskwarrior hooks see it (one line of JSON on stdin). -/
structure HookTask where
  uuid : String
  description : Option String
  priority : Option String
  due : Option String
  status : Option String
  reminder_id : Option String
  modified : Option String
  entry : Option String
deriving DecidableEq

/-- on_add.update_sync_state: store a new mapping for the just-created
reminder; the reminder-side fingerprint is written as "". -/
def update_sync_state (state : List SyncMapping) (uuid reminder_id modified : String) :
    List SyncMapping :=
  set_mapping state
    { uuid := uuid
      reminder_id := reminder_id
      tw_modified := modified
      reminder_modified := "" }

/-- on_add.main: skip tasks that already carry a reminder_id; otherwise,
when the create call returned a truthy identifier (the source guards with
Python truthiness, so a None result or an empty string does nothing),
record it on the task and in the sync state.  create_result is the
identifier returned by the Swift create call (none on failure). -/
def on_add_main (task : HookTask) (create_result : Option String)
    (state : List SyncMapping) : List SyncMapping × HookTask :=
  if truthy task.reminder_id then (state, task)
  else
    match create_result with
    | some rid =>
        if rid == "" then (state, task)
        else
          let task' := { task with reminder_id := some rid }
          (update_sync_state state task.uuid rid (task.modified.getD (task.entry.getD "")), task')
    | none => (state, task)

/-- A JSON value in an update payload. -/
inductive JVal where
  | s (v : String)
  | n (v : Nat)
  | b (v : Bool)
deriving DecidableEq

/-- map_priority_to_reminder: Taskwarrior priority (H/M/L) to Reminder (1/5/9). -/
def map_priority_to_reminder (priority : Option String) : Nat :=
  if priority == some "H" then 1
  else if priority == some "M" then 5
  else if priority == some "L" then 9
  else 0

/-- The update_data dict built by on_modify.update_reminder, in insertion
order: the identifier, then one entry per changed field. -/
def update_data (reminder_id : String) (task original : HookTask) :
    List (String × JVal) :=
  let d := [("identifier", JVal.s reminder_id)]
  let d := if task.description != original.description then
      d ++ [("title", JVal.s (task.description.getD ""))] else d
  let d := if task.priority != original.priority then
      d ++ [("priority", JVal.n (map_priority_to_reminder task.priority))] else d
  let d := if task.due != original.due then
      d ++ [("due_date", JVal.s (task.due.getD ""))] else d
  let d :=
    if task.status == some "completed" && !(original.status == some "completed") then
      d ++ [("is_completed", JVal.b true)]
    else if !(task.status == some "completed") && original.status == some "completed" then
      d ++ [("is_completed", JVal.b false)]
    else d
  d

/-- update_reminder's network behaviour: the payload sent to the Swift
update command, or none when only the identifier is in the dict (no call). -/
def update_reminder_call (reminder_id : String) (task original : HookTask) :
    Option (List (String × JVal)) :=
  let d := update_data reminder_id task original
  if d.length ≤ 1 then none else some d

/-- Membership of an entry of the sweep's starting table in the swept table:
an entry survives iff no removed entry of the iterated list shares its uuid. -/
def keep_mapping (ids : List String) (L : List SyncMapping) (m' : SyncMapping) : Bool :=
  L.all (fun m => ids.contains m.reminder_id || !(m'.uuid == m.uuid))

/-- The task stored at uuid u exists and is marked deleted. -/
def deleted_at (tw : List Task) (u : String) : Prop :=
  ∃ t, tw_get tw u = some t ∧ t.status = "deleted"

/-- The per-record skip condition that makes a second pass over the same
record a no-op: either the record is mapped, its task is present and its
modification date is not newer than the stored fingerprint, or it is
unmapped and completed. -/
def SkipReady (env : Env) (r : Reminder) : Prop :=
  match get_by_reminder_id env.ms r.identifier with
  | some m => (tw_get env.tw m.uuid).isSome = true ∧
      pyStrLe (r.modificationDate.getD "") m.reminder_modified = true
  | none => r.isCompleted = true

/-! ### Helper lemmas -/

lemma strLeChars_nil (l : List Char) : strLeChars [] l = true := rfl

lemma strLeChars_refl (l : List Char) : strLeChars l l = true := by
  induction l with
  | nil => rfl
  | cons a as ih => simp [strLeChars, ih]

lemma pyStrLe_refl (s : String) : pyStrLe s s = true := strLeChars_refl s.data

lemma pyStrLe_empty (s : String) : pyStrLe "" s = true := by
  have h : "".data = [] := rfl
  rw [pyStrLe, h, strLeChars_nil]

lemma find?_filter_of_imp {α : Type} (p q : α → Bool) (l : List α)
    (h : ∀ x, p x = true → q x = true) :
    (l.filter q).find? p = l.find? p := by
  induction l with
  | nil => rfl
  | cons x xs ih =>
      cases hp : p x with
      | true => simp [List.filter_cons, h x hp, List.find?, hp]
      | false =>
          cases hq : q x with
          | true => simp [List.filter_cons, hq, List.find?, hp, ih]
          | false => simp [List.filter_cons, hq, List.find?, hp, ih]

lemma find?_eq_none_filter {α : Type} (p q : α → Bool) (l : List α)
    (h : l.find? p = none) : (l.filter q).find? p = none := by
  rw [List.find?_eq_none] at h ⊢
  intro x hx
  exact h x (List.mem_of_mem_filter hx)

lemma find?_append_some {α : Type} {p : α → Bool} {l₁ : List α} {a : α} (l₂ : List α)
    (h : l₁.find? p = some a) : (l₁ ++ l₂).find? p = some a := by
  induction l₁ with
  | nil => simp [List.find?] at h
  | cons x xs ih =>
      rw [List.cons_append]
      cases hp : p x with
      | true =>
          rw [List.find?_cons_of_pos _ hp] at h
          rw [List.find?_cons_of_pos _ hp]
          exact h
      | false =>
          rw [List.find?_cons_of_neg _ (by simp [hp])] at h
          rw [List.find?_cons_of_neg _ (by simp [hp])]
          exact ih h

lemma find?_append_none {α : Type} {p : α → Bool} {l₁ : List α} (l₂ : List α)
    (h : l₁.find? p = none) : (l₁ ++ l₂).find? p = l₂.find? p := by
  induction l₁ with
  | nil => rfl
  | cons x xs ih =>
      rw [List.cons_append]
      cases hp : p x with
      | true => rw [List.find?_cons_of_pos _ hp] at h; cases h
      | false =>
          rw [List.find?_cons_of_neg _ (by simp [hp])] at h
          rw [List.find?_cons_of_neg _ (by simp [hp])]
          exact ih h

lemma contains_of_mem {l : List String} {a : String} (h : a ∈ l) :
    l.contains a = true :=
  List.elem_eq_true_of_mem h

lemma mem_of_contains {l : List String} {a : String} (h : l.contains a = true) :
    a ∈ l :=
  List.mem_of_elem_eq_true h

lemma mem_set_mapping {ms : List SyncMapping} {m x : SyncMapping}
    (hx : x ∈ set_mapping ms m) : x = m ∨ x ∈ ms := by
  induction ms with
  | nil => simpa [set_mapping] using hx
  | cons y ys ih =>
      cases hb : (y.uuid == m.uuid) with
      | true =>
          rw [set_mapping, if_pos hb] at hx
          rcases List.mem_cons.mp hx with h1 | h1
          · exact Or.inl h1
          · exact Or.inr (List.mem_cons_of_mem _ h1)
      | false =>
          rw [set_mapping, if_neg (by simp [hb])] at hx
          rcases List.mem_cons.mp hx with h1 | h1
          · exact Or.inr (by simp [h1])
          · rcases ih h1 with h2 | h2
            · exact Or.inl h2
            · exact Or.inr (List.mem_cons_of_mem _ h2)

lemma set_mapping_nodup {ms : List SyncMapping} {m : SyncMapping}
    (h : (ms.map (fun x => x.uuid)).Nodup) :
    ((set_mapping ms m).map (fun x => x.uuid)).Nodup := by
  induction ms with
  | nil => simp [set_mapping]
  | cons y ys ih =>
      rw [List.map_cons, List.nodup_cons] at h
      obtain ⟨hy, hys⟩ := h
      cases hb : (y.uuid == m.uuid) with
      | true =>
          have he : y.uuid = m.uuid := by simpa using hb
          rw [set_mapping, if_pos hb, List.map_cons, List.nodup_cons]
          exact ⟨by rw [← he]; exact hy, hys⟩
      | false =>
          rw [set_mapping, if_neg (by simp [hb]), List.map_cons, List.nodup_cons]
          refine ⟨?_, ih hys⟩
          intro hin
          rw [List.mem_map] at hin
          obtain ⟨z, hz, hzu⟩ := hin
          rcases mem_set_mapping hz with rfl | hz'
          · rw [← hzu] at hb; simp at hb
          · exact hy (by rw [← hzu]; exact List.mem_map_of_mem _ hz')

lemma get_by_uuid_cons_pos {x : SyncMapping} (xs : List SyncMapping) {u : String}
    (h : (x.uuid == u) = true) : get_by_uuid (x :: xs) u = some x := by
  rw [get_by_uuid]; exact List.find?_cons_of_pos _ h

lemma get_by_uuid_cons_neg {x : SyncMapping} (xs : List SyncMapping) {u : String}
    (h : (x.uuid == u) = false) : get_by_uuid (x :: xs) u = get_by_uuid xs u := by
  rw [get_by_uuid, get_by_uuid]; exact List.find?_cons_of_neg _ (by simp [h])

lemma get_by_reminder_id_cons_pos {x : SyncMapping} (xs : List SyncMapping) {rid : String}
    (h : (x.reminder_id == rid) = true) : get_by_reminder_id (x :: xs) rid = some x := by
  rw [get_by_reminder_id]; exact List.find?_cons_of_pos _ h

lemma get_by_reminder_id_cons_neg {x : SyncMapping} (xs : List SyncMapping) {rid : String}
    (h : (x.reminder_id == rid) = false) :
    get_by_reminder_id (x :: xs) rid = get_by_reminder_id xs rid := by
  rw [get_by_reminder_id, get_by_reminder_id]; exact List.find?_cons_of_neg _ (by simp [h])

lemma tw_get_cons_pos {x : Task} (xs : List Task) {u : String}
    (h : (x.uuid == u) = true) : tw_get (x :: xs) u = some x := by
  rw [tw_get]; exact List.find?_cons_of_pos _ h

lemma tw_get_cons_neg {x : Task} (xs : List Task) {u : String}
    (h : (x.uuid == u) = false) : tw_get (x :: xs) u = tw_get xs u := by
  rw [tw_get, tw_get]; exact List.find?_cons_of_neg _ (by simp [h])

lemma set_mapping_append {ms : List SyncMapping} {m : SyncMapping}
    (h : get_by_uuid ms m.uuid = none) : set_mapping ms m = ms ++ [m] := by
  induction ms with
  | nil => rfl
  | cons x xs ih =>
      cases hb : (x.uuid == m.uuid) with
      | true => rw [get_by_uuid_cons_pos xs hb] at h; cases h
      | false =>
          rw [get_by_uuid_cons_neg xs hb] at h
          rw [set_mapping, if_neg (by simp [hb]), List.cons_append, ih h]

lemma get_by_uuid_remove_self (ms : List SyncMapping) (u : String) :
    get_by_uuid (remove_mapping ms u) u = none := by
  rw [get_by_uuid, List.find?_eq_none]
  intro x hx
  rw [remove_mapping, List.mem_filter] at hx
  simpa using hx.2

lemma get_by_uuid_remove_none {ms : List SyncMapping} {u : String} (v : String)
    (h : get_by_uuid ms u = none) : get_by_uuid (remove_mapping ms v) u = none :=
  find?_eq_none_filter _ _ _ h

lemma get_by_uuid_eq_none {ms : List SyncMapping} {tw : List Task} {u : String}
    (htasks : ∀ m ∈ ms, (tw_get tw m.uuid).isSome = true)
    (hu : tw_get tw u = none) : get_by_uuid ms u = none := by
  rw [get_by_uuid, List.find?_eq_none]
  intro x hx hpx
  have he : x.uuid = u := by simpa using hpx
  have := htasks x hx
  rw [he, hu] at this
  cases this

lemma nodup_uuid_inj {L : List SyncMapping} (hN : (L.map (fun x => x.uuid)).Nodup)
    {a b : SyncMapping} (ha : a ∈ L) (hb : b ∈ L) (h : a.uuid = b.uuid) : a = b :=
  List.inj_on_of_nodup_map hN ha hb h

lemma get_by_reminder_id_mem {ms : List SyncMapping} {rid : String} {m : SyncMapping}
    (h : get_by_reminder_id ms rid = some m) : m ∈ ms :=
  List.mem_of_find?_eq_some h

lemma get_by_reminder_id_rid {ms : List SyncMapping} {rid : String} {m : SyncMapping}
    (h : get_by_reminder_id ms rid = some m) : m.reminder_id = rid := by
  simpa using List.find?_some h

lemma tw_get_uuid {tw : List Task} {u : String} {t : Task}
    (h : tw_get tw u = some t) : t.uuid = u := by
  simpa using List.find?_some h

lemma set_mapping_found_rid {ms : List SyncMapping} {rid : String} {m : SyncMapping}
    (m' : SyncMapping)
    (hms : (ms.map (fun x => x.uuid)).Nodup)
    (hfind : get_by_reminder_id ms rid = some m)
    (huuid : m'.uuid = m.uuid) (hrid : m'.reminder_id = m.reminder_id) :
    get_by_reminder_id (set_mapping ms m') rid = some m' ∧
    (∀ rid2, rid2 ≠ rid →
      get_by_reminder_id (set_mapping ms m') rid2 = get_by_reminder_id ms rid2) := by
  induction ms with
  | nil => cases hfind
  | cons x xs ih =>
      rw [List.map_cons, List.nodup_cons] at hms
      obtain ⟨hx, hxs⟩ := hms
      cases hpx : (x.reminder_id == rid) with
      | true =>
          rw [get_by_reminder_id_cons_pos xs hpx] at hfind
          have hxm : x = m := by injection hfind
          subst hxm
          have hb : (x.uuid == m'.uuid) = true := by simp [huuid]
          rw [set_mapping, if_pos hb]
          constructor
          · exact get_by_reminder_id_cons_pos xs (by rw [hrid]; exact hpx)
          · intro rid2 hne
            have hx2 : (x.reminder_id == rid2) = false := by
              have h1 : x.reminder_id = rid := by simpa using hpx
              have h2 : ¬(x.reminder_id = rid2) := by rw [h1]; exact fun h => hne h.symm
              simp [h2]
            have hm2 : (m'.reminder_id == rid2) = false := by rw [hrid]; exact hx2
            rw [get_by_reminder_id_cons_neg xs hm2, get_by_reminder_id_cons_neg xs hx2]
      | false =>
          rw [get_by_reminder_id_cons_neg xs hpx] at hfind
          have hmem : m ∈ xs := get_by_reminder_id_mem hfind
          have hbx : (x.uuid == m'.uuid) = false := by
            rw [huuid]
            have : ¬(x.uuid = m.uuid) := by
              intro he
              exact hx (by rw [he]; exact List.mem_map_of_mem _ hmem)
            simp [this]
          rw [set_mapping, if_neg (by simp [hbx])]
          obtain ⟨iha, ihb⟩ := ih hxs hfind
          constructor
          · rw [get_by_reminder_id_cons_neg _ hpx]
            exact iha
          · intro rid2 hne
            cases hpx2 : (x.reminder_id == rid2) with
            | true =>
                rw [get_by_reminder_id_cons_pos _ hpx2, get_by_reminder_id_cons_pos xs hpx2]
            | false =>
                rw [get_by_reminder_id_cons_neg _ hpx2, get_by_reminder_id_cons_neg xs hpx2]
                exact ihb rid2 hne

lemma tw_get_save_self (tw : List Task) (t : Task) :
    tw_get (tw_save tw t) t.uuid = some t := by
  induction tw with
  | nil => simp [tw_save, tw_get, List.find?]
  | cons x xs ih =>
      cases hb : (x.uuid == t.uuid) with
      | true =>
          rw [tw_save, if_pos hb]
          exact tw_get_cons_pos xs (by simp)
      | false =>
          rw [tw_save, if_neg (by simp [hb]), tw_get_cons_neg _ hb]
          exact ih

lemma tw_get_save_other {tw : List Task} {t : Task} {u : String}
    (h : u ≠ t.uuid) : tw_get (tw_save tw t) u = tw_get tw u := by
  have htu : (t.uuid == u) = false := by
    have : ¬(t.uuid = u) := fun e => h e.symm
    simp [this]
  induction tw with
  | nil => simp [tw_save, tw_get, List.find?, htu]
  | cons x xs ih =>
      cases hb : (x.uuid == t.uuid) with
      | true =>
          have hxu : (x.uuid == u) = false := by
            have hxt : x.uuid = t.uuid := by simpa using hb
            rw [hxt]; exact htu
          rw [tw_save, if_pos hb, tw_get_cons_neg xs htu, tw_get_cons_neg xs hxu]
      | false =>
          rw [tw_save, if_neg (by simp [hb])]
          cases hxu : (x.uuid == u) with
          | true => rw [tw_get_cons_pos _ hxu, tw_get_cons_pos xs hxu]
          | false =>
              rw [tw_get_cons_neg _ hxu, tw_get_cons_neg xs hxu]
              exact ih

lemma tw_get_save_isSome {tw : List Task} {t : Task} {u : String}
    (h : (tw_get tw u).isSome = true) : (tw_get (tw_save tw t) u).isSome = true := by
  by_cases he : u = t.uuid
  · rw [he, tw_get_save_self]; rfl
  · rw [tw_get_save_other he]; exact h

lemma tw_get_save_none {tw : List Task} {t : Task} {u : String}
    (h : tw_get tw u = none) (hne : u ≠ t.uuid) :
    tw_get (tw_save tw t) u = none := by
  rw [tw_get_save_other hne]; exact h

lemma sweep_mapping_ms (ids : List String) (env : Env) (m : SyncMapping)
    (hc : ids.contains m.reminder_id = false) :
    (sweep_mapping ids env m).ms = remove_mapping env.ms m.uuid := by
  rw [sweep_mapping, if_neg (by rw [hc]; simp)]

lemma sweep_mapping_ms_kept (ids : List String) (env : Env) (m : SyncMapping)
    (hc : ids.contains m.reminder_id = true) :
    sweep_mapping ids env m = env := by
  rw [sweep_mapping, if_pos hc]

lemma check_deleted_aux_ms (ids : List String) (L : List SyncMapping) (env : Env) :
    (check_deleted_aux ids L env).ms = env.ms.filter (keep_mapping ids L) := by
  induction L generalizing env with
  | nil =>
      rw [check_deleted_aux]
      have : env.ms.filter (keep_mapping ids []) = env.ms.filter (fun _ => true) := by
        apply List.filter_congr
        intro x _
        rfl
      rw [this, List.filter_true]
  | cons m rest ih =>
      rw [check_deleted_aux]
      cases hc : ids.contains m.reminder_id with
      | true =>
          rw [sweep_mapping_ms_kept ids env m hc, ih]
          apply List.filter_congr
          intro x _
          rw [keep_mapping, keep_mapping, List.all_cons, hc]
          simp
      | false =>
          rw [ih]
          have hms : (sweep_mapping ids env m).ms = remove_mapping env.ms m.uuid :=
            sweep_mapping_ms ids env m hc
          rw [hms, remove_mapping, List.filter_filter]
          apply List.filter_congr
          intro x _
          rw [keep_mapping, keep_mapping, List.all_cons, hc, Bool.false_or, Bool.and_comm]

lemma keep_mapping_eq {ids : List String} {L : List SyncMapping} {m' : SyncMapping}
    (hm' : m' ∈ L) (hN : (L.map (fun x => x.uuid)).Nodup) :
    keep_mapping ids L m' = ids.contains m'.reminder_id := by
  cases hc : ids.contains m'.reminder_id with
  | true =>
      rw [keep_mapping, List.all_eq_true]
      intro m hm
      cases hb : (m'.uuid == m.uuid) with
      | false => simp [hb]
      | true =>
          have he : m'.uuid = m.uuid := by simpa using hb
          have hmm : m = m' := nodup_uuid_inj hN hm hm' he.symm
          rw [hmm, hc]
          simp
  | false =>
      cases hk : keep_mapping ids L m' with
      | false => rfl
      | true =>
          rw [keep_mapping, List.all_eq_true] at hk
          have := hk m' hm'
          rw [hc] at this
          simp at this

lemma sweep_mapping_tw_isSome {ids : List String} {env : Env} {m : SyncMapping} {u : String}
    (h : (tw_get env.tw u).isSome = true) :
    (tw_get (sweep_mapping ids env m).tw u).isSome = true := by
  rw [sweep_mapping]
  split
  · exact h
  · dsimp only
    cases hg : tw_get env.tw m.uuid with
    | none => exact h
    | some t =>
        cases hs : (t.status == "deleted") with
        | true => simpa [hs] using h
        | false =>
            simp only [hs, Bool.not_false, if_true]
            exact tw_get_save_isSome h

lemma check_deleted_aux_tw_isSome {ids : List String} {L : List SyncMapping} {u : String} :
    ∀ env : Env, (tw_get env.tw u).isSome = true →
      (tw_get (check_deleted_aux ids L env).tw u).isSome = true := by
  induction L with
  | nil => intro env h; exact h
  | cons m rest ih =>
      intro env h
      rw [check_deleted_aux]
      exact ih _ (sweep_mapping_tw_isSome h)

lemma sweep_mapping_deleted_at {ids : List String} {env : Env} {m : SyncMapping} {u : String}
    (h : deleted_at env.tw u) : deleted_at (sweep_mapping ids env m).tw u := by
  obtain ⟨t, ht, hs⟩ := h
  rw [sweep_mapping]
  split
  · exact ⟨t, ht, hs⟩
  · dsimp only
    cases hg : tw_get env.tw m.uuid with
    | none => exact ⟨t, ht, hs⟩
    | some t2 =>
        cases hsb : (t2.status == "deleted") with
        | true =>
            simp only [hsb, Bool.not_true, if_false]
            exact ⟨t, ht, hs⟩
        | false =>
            simp only [hsb, Bool.not_false, if_true]
            by_cases he : u = t2.uuid
            · refine ⟨{ t2 with status := "deleted" }, ?_, rfl⟩
              rw [he]
              exact tw_get_save_self env.tw { t2 with status := "deleted" }
            · refine ⟨t, ?_, hs⟩
              rw [@tw_get_save_other env.tw { t2 with status := "deleted" } u he]
              exact ht

lemma check_deleted_aux_deleted_at {ids : List String} {L : List SyncMapping} {u : String} :
    ∀ env : Env, deleted_at env.tw u → deleted_at (check_deleted_aux ids L env).tw u := by
  induction L with
  | nil => intro env h; exact h
  | cons m rest ih =>
      intro env h
      rw [check_deleted_aux]
      exact ih _ (sweep_mapping_deleted_at h)

lemma check_deleted_aux_deletes {ids : List String} {L : List SyncMapping} {m : SyncMapping}
    (hm : m ∈ L) (hc : ids.contains m.reminder_id = false) :
    ∀ env : Env, (tw_get env.tw m.uuid).isSome = true →
      deleted_at (check_deleted_aux ids L env).tw m.uuid := by
  induction L with
  | nil => cases hm
  | cons x rest ih =>
      intro env hpres
      rcases List.mem_cons.mp hm with rfl | hm'
      · rw [check_deleted_aux]
        apply check_deleted_aux_deleted_at
        rw [sweep_mapping, if_neg (by rw [hc]; simp)]
        dsimp only
        obtain ⟨t, ht⟩ := Option.isSome_iff_exists.mp hpres
        have htu : t.uuid = m.uuid := tw_get_uuid ht
        rw [ht]
        cases hsb : (t.status == "deleted") with
        | true =>
            simp only [hsb, Bool.not_true, if_false]
            exact ⟨t, ht, by simpa using hsb⟩
        | false =>
            simp only [hsb, Bool.not_false, if_true]
            refine ⟨{ t with status := "deleted" }, ?_, rfl⟩
            rw [← htu]
            exact tw_get_save_self env.tw { t with status := "deleted" }
      · rw [check_deleted_aux]
        exact ih hm' _ (sweep_mapping_tw_isSome hpres)

lemma check_deleted_aux_uuid_none {ids : List String} {L : List SyncMapping} {u : String} :
    ∀ env : Env, get_by_uuid env.ms u = none →
      get_by_uuid (check_deleted_aux ids L env).ms u = none := by
  induction L with
  | nil => intro env h; exact h
  | cons m rest ih =>
      intro env h
      rw [check_deleted_aux]
      apply ih
      rw [sweep_mapping]
      split
      · exact h
      · dsimp only
        exact get_by_uuid_remove_none m.uuid h

lemma check_deleted_aux_removes {ids : List String} {L : List SyncMapping} {m : SyncMapping}
    (hm : m ∈ L) (hc : ids.contains m.reminder_id = false) :
    ∀ env : Env, get_by_uuid (check_deleted_aux ids L env).ms m.uuid = none := by
  induction L with
  | nil => cases hm
  | cons x rest ih =>
      intro env
      rcases List.mem_cons.mp hm with rfl | hm'
      · rw [check_deleted_aux]
        apply check_deleted_aux_uuid_none
        rw [sweep_mapping_ms ids env m hc]
        exact get_by_uuid_remove_self env.ms m.uuid
      · rw [check_deleted_aux]
        exact ih hm' _

lemma check_deleted_aux_id {ids : List String} {L : List SyncMapping}
    (h : ∀ m ∈ L, ids.contains m.reminder_id = true) :
    ∀ env : Env, check_deleted_aux ids L env = env := by
  induction L with
  | nil => intro env; rfl
  | cons x rest ih =>
      intro env
      rw [check_deleted_aux, sweep_mapping_ms_kept ids env x (h x (by simp))]
      exact ih (fun m hm => h m (List.mem_cons_of_mem _ hm)) env

lemma update_task_from_reminder_uuid (t : Task) (r : Reminder) :
    (update_task_from_reminder t r).uuid = t.uuid := by
  rw [update_task_from_reminder]
  cases r.list <;> dsimp only <;> split_ifs <;> rfl

lemma new_reminder_task_uuid (u : String) (r : Reminder) :
    (new_reminder_task u r).uuid = u := rfl

lemma new_reminder_task_modified (u : String) (r : Reminder) :
    (new_reminder_task u r).modified = none := rfl

lemma sync_skip_stale {r : Reminder} {env : Env} {m : SyncMapping} {t : Task}
    (hm : get_by_reminder_id env.ms r.identifier = some m)
    (ht : tw_get env.tw m.uuid = some t)
    (hle : pyStrLe (r.modificationDate.getD "") m.reminder_modified = true) :
    sync_reminder_to_task r env = env := by
  rw [sync_reminder_to_task, hm]
  dsimp only
  rw [ht]
  dsimp only
  rw [if_pos hle]

lemma sync_skip_unknown_completed {r : Reminder} {env : Env}
    (hm : get_by_reminder_id env.ms r.identifier = none)
    (hc : r.isCompleted = true) :
    sync_reminder_to_task r env = env := by
  rw [sync_reminder_to_task, hm]
  dsimp only
  rw [if_pos hc]

lemma sync_update_eq {r : Reminder} {env : Env} {m : SyncMapping} {t : Task}
    (hm : get_by_reminder_id env.ms r.identifier = some m)
    (ht : tw_get env.tw m.uuid = some t)
    (hle : pyStrLe (r.modificationDate.getD "") m.reminder_modified = false) :
    sync_reminder_to_task r env =
      { env with
        tw := tw_save env.tw (update_task_from_reminder t r)
        ms := set_mapping env.ms
          { m with
            reminder_modified := r.modificationDate.getD ""
            tw_modified := (update_task_from_reminder t r).modified.getD "" } } := by
  rw [sync_reminder_to_task, hm]
  dsimp only
  rw [ht]
  dsimp only
  rw [if_neg (by rw [hle]; simp)]

lemma sync_create_eq {r : Reminder} {env : Env}
    (hm : get_by_reminder_id env.ms r.identifier = none)
    (hc : r.isCompleted = false) :
    sync_reminder_to_task r env =
      { env with
        tw := tw_save env.tw (new_reminder_task (env.fresh.headD "") r)
        fresh := env.fresh.tail
        ms := set_mapping env.ms
          { uuid := (new_reminder_task (env.fresh.headD "") r).uuid
            reminder_id := r.identifier
            tw_modified := (new_reminder_task (env.fresh.headD "") r).modified.getD ""
            reminder_modified := r.modificationDate.getD "" } } := by
  rw [sync_reminder_to_task, hm]
  dsimp only
  rw [if_neg (by rw [hc]; simp)]

lemma sync_skip_of_ready {r : Reminder} {env : Env} (h : SkipReady env r) :
    sync_reminder_to_task r env = env := by
  rw [SkipReady] at h
  cases hm : get_by_reminder_id env.ms r.identifier with
  | some m =>
      rw [hm] at h
      obtain ⟨hpres, hle⟩ := h
      obtain ⟨t, ht⟩ := Option.isSome_iff_exists.mp hpres
      exact sync_skip_stale hm ht hle
  | none =>
      rw [hm] at h
      exact sync_skip_unknown_completed hm h

lemma sync_all_id {rs : List Reminder} {env : Env}
    (h : ∀ r ∈ rs, sync_reminder_to_task r env = env) : sync_all rs env = env := by
  induction rs with
  | nil => rfl
  | cons r rest ih =>
      rw [sync_all, h r (by simp)]
      exact ih (fun x hx => h x (List.mem_cons_of_mem _ hx))

lemma skipReady_of_some {env : Env} {r : Reminder} {m : SyncMapping}
    (hf : get_by_reminder_id env.ms r.identifier = some m)
    (hp : (tw_get env.tw m.uuid).isSome = true)
    (hl : pyStrLe (r.modificationDate.getD "") m.reminder_modified = true) :
    SkipReady env r := by
  rw [SkipReady, hf]
  exact ⟨hp, hl⟩

lemma skipReady_of_none {env : Env} {r : Reminder}
    (hf : get_by_reminder_id env.ms r.identifier = none)
    (hc : r.isCompleted = true) : SkipReady env r := by
  rw [SkipReady, hf]
  exact hc

lemma sync_step_spec (r : Reminder) (env : Env)
    (hMs : (env.ms.map (fun m => m.uuid)).Nodup)
    (hTasks : ∀ m ∈ env.ms, (tw_get env.tw m.uuid).isSome = true)
    (hFrN : env.fresh.Nodup)
    (hFrTw : ∀ u ∈ env.fresh, tw_get env.tw u = none)
    (hFrNe : env.fresh ≠ []) :
    SkipReady (sync_reminder_to_task r env) r ∧
    (∀ x : Reminder, x.identifier ≠ r.identifier → SkipReady env x →
      SkipReady (sync_reminder_to_task r env) x) ∧
    (((sync_reminder_to_task r env).ms.map (fun m => m.uuid)).Nodup) ∧
    (∀ m ∈ (sync_reminder_to_task r env).ms,
      (tw_get (sync_reminder_to_task r env).tw m.uuid).isSome = true) ∧
    (sync_reminder_to_task r env).fresh.Nodup ∧
    (∀ u ∈ (sync_reminder_to_task r env).fresh,
      tw_get (sync_reminder_to_task r env).tw u = none) ∧
    env.fresh.length ≤ (sync_reminder_to_task r env).fresh.length + 1 := by
  cases hfind : get_by_reminder_id env.ms r.identifier with
  | some m =>
      have hmem : m ∈ env.ms := get_by_reminder_id_mem hfind
      have hpres := hTasks m hmem
      obtain ⟨t, ht⟩ := Option.isSome_iff_exists.mp hpres
      have htu : t.uuid = m.uuid := tw_get_uuid ht
      cases hle : pyStrLe (r.modificationDate.getD "") m.reminder_modified with
      | true =>
          have hid : sync_reminder_to_task r env = env := sync_skip_stale hfind ht hle
          rw [hid]
          exact ⟨skipReady_of_some hfind hpres hle, fun x _ hx => hx, hMs, hTasks,
            hFrN, hFrTw, Nat.le_succ _⟩
      | false =>
          have hstep := sync_update_eq hfind ht hle
          rw [hstep]
          have htu' : (update_task_from_reminder t r).uuid = m.uuid := by
            rw [update_task_from_reminder_uuid, htu]
          obtain ⟨hfound, hother⟩ :=
            set_mapping_found_rid
              { m with
                reminder_modified := r.modificationDate.getD ""
                tw_modified := (update_task_from_reminder t r).modified.getD "" }
              hMs hfind rfl rfl
          refine ⟨?_, ?_, ?_, ?_, hFrN, ?_, Nat.le_succ _⟩
          · apply skipReady_of_some hfound
            · show (tw_get (tw_save env.tw (update_task_from_reminder t r)) m.uuid).isSome = true
              rw [← htu', tw_get_save_self]
              rfl
            · exact pyStrLe_refl _
          · intro x hne hx
            cases hfx : get_by_reminder_id env.ms x.identifier with
            | some mx =>
                rw [SkipReady, hfx] at hx
                obtain ⟨hp, hl⟩ := hx
                exact skipReady_of_some (by rw [hother x.identifier hne, hfx])
                  (tw_get_save_isSome hp) hl
            | none =>
                rw [SkipReady, hfx] at hx
                exact skipReady_of_none (by rw [hother x.identifier hne, hfx]) hx
          · exact set_mapping_nodup hMs
          · intro m2 hm2
            rcases mem_set_mapping hm2 with rfl | hm2'
            · show (tw_get (tw_save env.tw (update_task_from_reminder t r)) m.uuid).isSome = true
              rw [← htu', tw_get_save_self]
              rfl
            · exact tw_get_save_isSome (hTasks m2 hm2')
          · intro v hv
            have hnone := hFrTw v hv
            have hneq : v ≠ (update_task_from_reminder t r).uuid := by
              intro he
              rw [he, htu', ht] at hnone
              cases hnone
            exact tw_get_save_none hnone hneq
  | none =>
      cases hc : r.isCompleted with
      | true =>
          have hid := sync_skip_unknown_completed hfind hc
          rw [hid]
          exact ⟨skipReady_of_none hfind hc, fun x _ hx => hx, hMs, hTasks,
            hFrN, hFrTw, Nat.le_succ _⟩
      | false =>
          obtain ⟨u, restF, hfr⟩ : ∃ u restF, env.fresh = u :: restF := by
            cases hf : env.fresh with
            | nil => exact absurd hf hFrNe
            | cons a b => exact ⟨a, b, rfl⟩
          have hstep := sync_create_eq hfind hc
          rw [hfr, List.headD_cons, List.tail_cons] at hstep
          rw [hstep]
          have hufresh : tw_get env.tw u = none := hFrTw u (by rw [hfr]; simp)
          have hgu : get_by_uuid env.ms u = none := get_by_uuid_eq_none hTasks hufresh
          have happ : set_mapping env.ms
              { uuid := (new_reminder_task u r).uuid
                reminder_id := r.identifier
                tw_modified := (new_reminder_task u r).modified.getD ""
                reminder_modified := r.modificationDate.getD "" } =
              env.ms ++
              [{ uuid := (new_reminder_task u r).uuid
                 reminder_id := r.identifier
                 tw_modified := (new_reminder_task u r).modified.getD ""
                 reminder_modified := r.modificationDate.getD "" }] :=
            set_mapping_append hgu
          have hfind' : get_by_reminder_id
              (set_mapping env.ms
                { uuid := (new_reminder_task u r).uuid
                  reminder_id := r.identifier
                  tw_modified := (new_reminder_task u r).modified.getD ""
                  reminder_modified := r.modificationDate.getD "" }) r.identifier =
              some
                { uuid := (new_reminder_task u r).uuid
                  reminder_id := r.identifier
                  tw_modified := (new_reminder_task u r).modified.getD ""
                  reminder_modified := r.modificationDate.getD "" } := by
            rw [happ, get_by_reminder_id, find?_append_none _ hfind]
            exact List.find?_cons_of_pos _ (by simp)
          have hother : ∀ rid2, rid2 ≠ r.identifier →
              get_by_reminder_id
                (set_mapping env.ms
                  { uuid := (new_reminder_task u r).uuid
                    reminder_id := r.identifier
                    tw_modified := (new_reminder_task u r).modified.getD ""
                    reminder_modified := r.modificationDate.getD "" }) rid2 =
              get_by_reminder_id env.ms rid2 := by
            intro rid2 hne
            rw [happ, get_by_reminder_id]
            cases hfx : get_by_reminder_id env.ms rid2 with
            | some mx => exact find?_append_some _ hfx
            | none =>
                rw [find?_append_none _ hfx, List.find?_eq_none]
                intro x hx hpx
                rw [List.mem_singleton] at hx
                rw [hx] at hpx
                have : r.identifier = rid2 := by simpa using hpx
                exact hne this.symm
          refine ⟨?_, ?_, ?_, ?_, ?_, ?_, ?_⟩
          · apply skipReady_of_some hfind'
            · show (tw_get (tw_save env.tw (new_reminder_task u r))
                (new_reminder_task u r).uuid).isSome = true
              rw [tw_get_save_self]
              rfl
            · exact pyStrLe_refl _
          · intro x hne hx
            cases hfx : get_by_reminder_id env.ms x.identifier with
            | some mx =>
                rw [SkipReady, hfx] at hx
                obtain ⟨hp, hl⟩ := hx
                exact skipReady_of_some (by rw [hother x.identifier hne, hfx])
                  (tw_get_save_isSome hp) hl
            | none =>
                rw [SkipReady, hfx] at hx
                exact skipReady_of_none (by rw [hother x.identifier hne, hfx]) hx
          · show ((set_mapping env.ms _).map (fun m => m.uuid)).Nodup
            rw [happ, List.map_append]
            have hnotin : (new_reminder_task u r).uuid ∉ env.ms.map (fun m => m.uuid) := by
              intro hin
              rw [List.mem_map] at hin
              obtain ⟨z, hz, hzu⟩ := hin
              have := List.find?_eq_none.mp hgu z hz
              exact this (by simp [hzu, new_reminder_task_uuid])
            simp only [List.map_cons, List.map_nil]
            rw [List.nodup_append]
            exact ⟨hMs, List.nodup_singleton _, by
              intro a ha hb
              rw [List.mem_singleton] at hb
              rw [hb] at ha
              exact hnotin ha⟩
          · intro m2 hm2
            rcases mem_set_mapping hm2 with rfl | hm2'
            · show (tw_get (tw_save env.tw (new_reminder_task u r))
                (new_reminder_task u r).uuid).isSome = true
              rw [tw_get_save_self]
              rfl
            · exact tw_get_save_isSome (hTasks m2 hm2')
          · show restF.Nodup
            rw [hfr] at hFrN
            exact (List.nodup_cons.mp hFrN).2
          · intro v hv
            show tw_get (tw_save env.tw (new_reminder_task u r)) v = none
            have hvfresh : v ∈ env.fresh := by rw [hfr]; exact List.mem_cons_of_mem _ hv
            have hvu : v ≠ u := by
              rw [hfr] at hFrN
              intro he
              rw [he] at hv
              exact (List.nodup_cons.mp hFrN).1 hv
            have hneq : v ≠ (new_reminder_task u r).uuid := by
              rw [new_reminder_task_uuid]
              exact hvu
            exact tw_get_save_none (hFrTw v hvfresh) hneq
          · show env.fresh.length ≤ restF.length + 1
            rw [hfr, List.length_cons]

lemma sync_all_spec (todo : List Reminder) :
    ∀ (done : List Reminder) (env : Env),
    (todo.map (fun r => r.identifier)).Nodup →
    (∀ r ∈ done, r.identifier ∉ todo.map (fun r => r.identifier)) →
    (∀ r ∈ done, SkipReady env r) →
    (env.ms.map (fun m => m.uuid)).Nodup →
    (∀ m ∈ env.ms, (tw_get env.tw m.uuid).isSome = true) →
    env.fresh.Nodup →
    (∀ u ∈ env.fresh, tw_get env.tw u = none) →
    todo.length ≤ env.fresh.length →
    (∀ r ∈ done ++ todo, SkipReady (sync_all todo env) r) ∧
    ((sync_all todo env).ms.map (fun m => m.uuid)).Nodup ∧
    (∀ m ∈ (sync_all todo env).ms, (tw_get (sync_all todo env).tw m.uuid).isSome = true) := by
  induction todo with
  | nil =>
      intro done env _ _ hDone hMs hTasks _ _ _
      exact ⟨by simpa using hDone, hMs, hTasks⟩
  | cons r rest ih =>
      intro done env hN hSep hDone hMs hTasks hFrN hFrTw hLen
      have hFrNe : env.fresh ≠ [] := by
        intro he
        rw [he] at hLen
        simp at hLen
      obtain ⟨hSkipR, hPres, hMs', hTasks', hFrN', hFrTw', hLen'⟩ :=
        sync_step_spec r env hMs hTasks hFrN hFrTw hFrNe
      rw [List.map_cons, List.nodup_cons] at hN
      obtain ⟨hrid, hNrest⟩ := hN
      have hSep' : ∀ x ∈ done ++ [r], x.identifier ∉ rest.map (fun r => r.identifier) := by
        intro x hx
        rcases List.mem_append.mp hx with hx' | hx'
        · have hs := hSep x hx'
          rw [List.map_cons] at hs
          exact fun hc => hs (List.mem_cons_of_mem _ hc)
        · rw [List.mem_singleton] at hx'
          rw [hx']
          exact hrid
      have hDone' : ∀ x ∈ done ++ [r], SkipReady (sync_reminder_to_task r env) x := by
        intro x hx
        rcases List.mem_append.mp hx with hx' | hx'
        · have hne : x.identifier ≠ r.identifier := by
            have hs := hSep x hx'
            rw [List.map_cons] at hs
            exact fun he => hs (by rw [he]; exact List.mem_cons_self _ _)
          exact hPres x hne (hDone x hx')
        · rw [List.mem_singleton] at hx'
          rw [hx']
          exact hSkipR
      have hLen'' : rest.length ≤ (sync_reminder_to_task r env).fresh.length := by
        rw [List.length_cons] at hLen
        omega
      obtain ⟨ha, hb, hc⟩ := ih (done ++ [r]) (sync_reminder_to_task r env)
        hNrest hSep' hDone' hMs' hTasks' hFrN' hFrTw' hLen''
      rw [sync_all]
      refine ⟨?_, hb, hc⟩
      intro x hx
      apply ha
      simp only [List.mem_append, List.mem_cons, List.mem_singleton] at hx ⊢
      tauto

lemma reconcile_post (rs : List Reminder) (env : Env)
    (hN : (rs.map (fun r => r.identifier)).Nodup)
    (hMs : (env.ms.map (fun m => m.uuid)).Nodup)
    (hTasks : ∀ m ∈ env.ms, (tw_get env.tw m.uuid).isSome = true)
    (hFrN : env.fresh.Nodup)
    (hFrTw : ∀ u ∈ env.fresh, tw_get env.tw u = none)
    (hLen : rs.length ≤ env.fresh.length) :
    (∀ r ∈ rs, SkipReady (reconcile rs env) r) ∧
    (∀ m ∈ (reconcile rs env).ms,
      (rs.map (fun r => r.identifier)).contains m.reminder_id = true) := by
  obtain ⟨hA, hB, hC⟩ := sync_all_spec rs [] env hN (by simp) (by simp)
    hMs hTasks hFrN hFrTw hLen
  rw [List.nil_append] at hA
  have hswept : (reconcile rs env).ms =
      (sync_all rs env).ms.filter
        (fun m => (rs.map (fun r => r.identifier)).contains m.reminder_id) := by
    rw [reconcile, check_deleted_reminders, check_deleted_aux_ms]
    apply List.filter_congr
    intro x hx
    exact keep_mapping_eq hx hB
  have htwpres : ∀ u : String, (tw_get (sync_all rs env).tw u).isSome = true →
      (tw_get (reconcile rs env).tw u).isSome = true := by
    intro u hu
    rw [reconcile, check_deleted_reminders]
    exact check_deleted_aux_tw_isSome _ hu
  constructor
  · intro r hr
    have hrid : (rs.map (fun x => x.identifier)).contains r.identifier = true :=
      contains_of_mem (List.mem_map_of_mem _ hr)
    have hready := hA r hr
    cases hfx : get_by_reminder_id (sync_all rs env).ms r.identifier with
    | some m =>
        rw [SkipReady, hfx] at hready
        obtain ⟨hp, hl⟩ := hready
        apply skipReady_of_some (m := m)
        · rw [hswept]
          rw [get_by_reminder_id] at hfx ⊢
          rw [find?_filter_of_imp]
          · exact hfx
          · intro x hpx
            have : x.reminder_id = r.identifier := by simpa using hpx
            rw [this]
            exact hrid
        · exact htwpres m.uuid hp
        · exact hl
    | none =>
        rw [SkipReady, hfx] at hready
        apply skipReady_of_none
        · rw [hswept]
          exact find?_eq_none_filter _ _ _ hfx
        · exact hready
  · intro m hm
    rw [hswept, List.mem_filter] at hm
    exact hm.2

lemma reconcile_idem (rs : List Reminder) (env : Env)
    (hN : (rs.map (fun r => r.identifier)).Nodup)
    (hMs : (env.ms.map (fun m => m.uuid)).Nodup)
    (hTasks : ∀ m ∈ env.ms, (tw_get env.tw m.uuid).isSome = true)
    (hFrN : env.fresh.Nodup)
    (hFrTw : ∀ u ∈ env.fresh, tw_get env.tw u = none)
    (hLen : rs.length ≤ env.fresh.length) :
    reconcile rs (reconcile rs env) = reconcile rs env := by
  obtain ⟨hA, hB⟩ := reconcile_post rs env hN hMs hTasks hFrN hFrTw hLen
  have hsync : sync_all rs (reconcile rs env) = reconcile rs env :=
    sync_all_id (fun r hr => sync_skip_of_ready (hA r hr))
  rw [reconcile, hsync, check_deleted_reminders]
  exact check_deleted_aux_id hB _

lemma remove_mapping_nodup {ms : List SyncMapping} {u : String}
    (h : (ms.map (fun m => m.uuid)).Nodup) :
    ((remove_mapping ms u).map (fun m => m.uuid)).Nodup :=
  List.Nodup.sublist (List.Sublist.map _ (List.filter_sublist _)) h

lemma run_ops_nodup (ops : List StateOp) :
    ∀ ms : List SyncMapping, (ms.map (fun m => m.uuid)).Nodup →
      ((ops.foldl apply_op ms).map (fun m => m.uuid)).Nodup := by
  induction ops with
  | nil => intro ms h; exact h
  | cons op rest ih =>
      intro ms h
      rw [List.foldl_cons]
      apply ih
      cases op with
      | set m => exact set_mapping_nodup h
      | remove u => exact remove_mapping_nodup h

/-! ### The claims -/

/-- C1: for a snapshot record with an existing Mapping whose local task is
present, when the record's modification timestamp (string comparison) is not
strictly greater than the Mapping's stored remote fingerprint, the
Reconciler skips the record entirely: the task store, the mappings table and
the fresh-uuid supply are all left unchanged; in particular an equal
timestamp produces no local mutation. -/
theorem C1_stale_remote_is_skipped (r : Reminder) (env : Env) (m : SyncMapping) (t : Task)
    (hm : get_by_reminder_id env.ms r.identifier = some m)
    (ht : tw_get env.tw m.uuid = some t)
    (hle : pyStrLe (r.modificationDate.getD "") m.reminder_modified = true) :
    sync_reminder_to_task r env = env :=
  sync_skip_stale hm ht hle

/-- Witness for C1 at a concrete input with an equal timestamp. -/
theorem C1_witness :
    get_by_reminder_id [⟨"u", "r", "", "2024-01-01T00:00:00Z"⟩] "r" =
      some ⟨"u", "r", "", "2024-01-01T00:00:00Z"⟩ ∧
    tw_get [⟨"u", "Buy milk", none, none, none, [], "pending", none, some "r",
      none, none, none⟩] "u" =
      some ⟨"u", "Buy milk", none, none, none, [], "pending", none, some "r",
        none, none, none⟩ ∧
    pyStrLe "2024-01-01T00:00:00Z" "2024-01-01T00:00:00Z" = true ∧
    sync_reminder_to_task
      ⟨"r", "Buy milk", none, none, none, false, some "2024-01-01T00:00:00Z",
        none, false, none, none, none⟩
      ⟨[⟨"u", "Buy milk", none, none, none, [], "pending", none, some "r",
          none, none, none⟩],
        [⟨"u", "r", "", "2024-01-01T00:00:00Z"⟩], []⟩ =
      ⟨[⟨"u", "Buy milk", none, none, none, [], "pending", none, some "r",
          none, none, none⟩],
        [⟨"u", "r", "", "2024-01-01T00:00:00Z"⟩], []⟩ :=
  ⟨by decide, by decide, by decide,
    C1_stale_remote_is_skipped _ _ ⟨"u", "r", "", "2024-01-01T00:00:00Z"⟩
      ⟨"u", "Buy milk", none, none, none, [], "pending", none, some "r",
        none, none, none⟩
      (by decide) (by decide) (by decide)⟩

/-- C2: after the deletion sweep, every Mapping whose reminder id is absent
from the snapshot's identifier set has been removed from the table, and if
its local task existed and was not already deleted, that task is now marked
deleted. -/
theorem C2_deletion_propagation (rs : List Reminder) (env : Env) (m : SyncMapping)
    (hm : m ∈ env.ms)
    (habs : (rs.map (fun r => r.identifier)).contains m.reminder_id = false) :
    get_by_uuid (check_deleted_reminders rs env).ms m.uuid = none ∧
    (∀ t, tw_get env.tw m.uuid = some t → t.status ≠ "deleted" →
      deleted_at (check_deleted_reminders rs env).tw m.uuid) := by
  constructor
  · rw [check_deleted_reminders]
    exact check_deleted_aux_removes hm habs env
  · intro t ht _
    rw [check_deleted_reminders]
    exact check_deleted_aux_deletes hm habs env (by rw [ht]; rfl)

/-- Witness for C2 at a concrete input: a mapped reminder absent from the
snapshot gets its Mapping removed and its pending task deleted. -/
theorem C2_witness :
    get_by_uuid (check_deleted_reminders []
      ⟨[⟨"u", "d", none, none, none, [], "pending", none, some "r", none, none, none⟩],
        [⟨"u", "r", "", ""⟩], []⟩).ms "u" = none ∧
    deleted_at (check_deleted_reminders []
      ⟨[⟨"u", "d", none, none, none, [], "pending", none, some "r", none, none, none⟩],
        [⟨"u", "r", "", ""⟩], []⟩).tw "u" :=
  have h := C2_deletion_propagation []
    ⟨[⟨"u", "d", none, none, none, [], "pending", none, some "r", none, none, none⟩],
      [⟨"u", "r", "", ""⟩], []⟩
    ⟨"u", "r", "", ""⟩ (by decide) (by decide)
  ⟨h.1, h.2 ⟨"u", "d", none, none, none, [], "pending", none, some "r", none, none, none⟩
    (by decide) (by decide)⟩

/-- Counterexample to C3: the claim says a failed export (non-zero exit)
makes the run skip the deletion sweep, so no Mapping is removed and no task
deleted.  In the code fetch_reminders returns an empty snapshot on failure
and main runs the sweep on it: with one existing Mapping for reminder "r"
and its pending task "u", a failed fetch (exit status 1) removes the Mapping
and marks the task deleted. -/
theorem C3_counterexample :
    (run_main 1
      [⟨"r", "t", none, none, none, false, some "5", none, false, none, none, none⟩]
      ⟨[⟨"u", "d", none, none, none, [], "pending", none, some "r", none, none, none⟩],
        [⟨"u", "r", "", ""⟩], []⟩).ms = [] ∧
    tw_get (run_main 1
      [⟨"r", "t", none, none, none, false, some "5", none, false, none, none, none⟩]
      ⟨[⟨"u", "d", none, none, none, [], "pending", none, some "r", none, none, none⟩],
        [⟨"u", "r", "", ""⟩], []⟩).tw "u" =
      some ⟨"u", "d", none, none, none, [], "deleted", none, some "r", none, none, none⟩ := by
  decide

/-- C3 amended: when the export invocation fails (non-zero exit status) the
fetch yields an empty snapshot and the run is indistinguishable from a run
over a genuinely empty snapshot; the deletion sweep still executes, so every
previously stored Mapping is removed. -/
theorem C3_amended_failed_fetch (exitCode : Nat) (output : List Reminder) (env : Env)
    (h : exitCode ≠ 0) :
    fetch_reminders exitCode output = [] ∧
    run_main exitCode output env = run_main 0 [] env ∧
    ∀ m ∈ env.ms, get_by_uuid (run_main exitCode output env).ms m.uuid = none := by
  have hf : fetch_reminders exitCode output = [] := by
    rw [fetch_reminders, if_pos h]
  have h0 : fetch_reminders 0 [] = [] := by
    rw [fetch_reminders]
    split <;> rfl
  refine ⟨hf, ?_, ?_⟩
  · rw [run_main, run_main, hf, h0]
  · intro m hm
    rw [run_main, hf]
    show get_by_uuid (check_deleted_reminders [] env).ms m.uuid = none
    rw [check_deleted_reminders]
    exact check_deleted_aux_removes hm (by simp) env

/-- Witness for the amended C3 at a concrete input. -/
theorem C3_amended_witness :
    fetch_reminders 1
      [⟨"r", "t", none, none, none, false, some "5", none, false, none, none, none⟩] = [] ∧
    run_main 1
      [⟨"r", "t", none, none, none, false, some "5", none, false, none, none, none⟩]
      ⟨[], [⟨"u", "r", "", ""⟩], []⟩ =
      run_main 0 [] ⟨[], [⟨"u", "r", "", ""⟩], []⟩ ∧
    get_by_uuid (run_main 1
      [⟨"r", "t", none, none, none, false, some "5", none, false, none, none, none⟩]
      ⟨[], [⟨"u", "r", "", ""⟩], []⟩).ms "u" = none :=
  have h := C3_amended_failed_fetch 1
    [⟨"r", "t", none, none, none, false, some "5", none, false, none, none, none⟩]
    ⟨[], [⟨"u", "r", "", ""⟩], []⟩ (by decide)
  ⟨h.1, h.2.1, h.2.2 ⟨"u", "r", "", ""⟩ (by decide)⟩

/-- Counterexample to C4: the claim asserts that no two Mappings of a
reachable table share a remote identifier; but set_mapping keys only on the
local uuid, so upserting two Mappings with distinct uuids and the same
reminder id yields a reachable table whose remote identifiers repeat. -/
theorem C4_counterexample :
    ¬ (((run_ops [StateOp.set ⟨"a", "r", "", ""⟩, StateOp.set ⟨"b", "r", "", ""⟩]).map
      (fun m => m.reminder_id)).Nodup) := by
  decide

/-- C4 amended: every table reachable from the empty table by set_mapping
and remove_mapping operations has pairwise distinct local uuids (the table
is a dict keyed by uuid); uniqueness of the remote identifier is not
enforced by the store. -/
theorem C4_amended_local_ids_unique (ops : List StateOp) :
    ((run_ops ops).map (fun m => m.uuid)).Nodup :=
  run_ops_nodup ops [] (by simp)

/-- Counterexample to C5: reconciliation is not idempotent for every
starting state and snapshot.  First input: a Mapping whose local task has
vanished — the first run only drops the Mapping, the second run re-creates
the task.  Second input: a snapshot with a duplicated identifier (completed
copy newer than the active copy) — the first run creates from the active
copy, the second run applies the completed copy as an update. -/
theorem C5_counterexample :
    (reconcile
      [⟨"r", "t", none, none, none, false, some "5", none, false, none, none, none⟩]
      (reconcile
        [⟨"r", "t", none, none, none, false, some "5", none, false, none, none, none⟩]
        ⟨[], [⟨"u", "r", "", ""⟩], ["f1", "f2"]⟩) ≠
      reconcile
        [⟨"r", "t", none, none, none, false, some "5", none, false, none, none, none⟩]
        ⟨[], [⟨"u", "r", "", ""⟩], ["f1", "f2"]⟩) ∧
    (reconcile
      [⟨"X", "t", none, none, none, true, some "9", none, false, none, none, none⟩,
       ⟨"X", "t", none, none, none, false, some "5", none, false, none, none, none⟩]
      (reconcile
        [⟨"X", "t", none, none, none, true, some "9", none, false, none, none, none⟩,
         ⟨"X", "t", none, none, none, false, some "5", none, false, none, none, none⟩]
        ⟨[], [], ["f1", "f2"]⟩) ≠
      reconcile
        [⟨"X", "t", none, none, none, true, some "9", none, false, none, none, none⟩,
         ⟨"X", "t", none, none, none, false, some "5", none, false, none, none, none⟩]
        ⟨[], [], ["f1", "f2"]⟩) := by
  decide

/-- C5 amended: reconciliation is idempotent provided the snapshot's
identifiers are pairwise distinct, every Mapping of the starting state
refers to a task present in the local store, and the fresh uuids the run may
assign to created tasks are pairwise distinct, unused, and sufficient in
number.  Under these conditions a second run over the same snapshot changes
nothing: no create, update or delete happens. -/
theorem C5_amended_idempotent (rs : List Reminder) (env : Env)
    (hN : (rs.map (fun r => r.identifier)).Nodup)
    (hMs : (env.ms.map (fun m => m.uuid)).Nodup)
    (hTasks : ∀ m ∈ env.ms, (tw_get env.tw m.uuid).isSome = true)
    (hFrN : env.fresh.Nodup)
    (hFrTw : ∀ u ∈ env.fresh, tw_get env.tw u = none)
    (hLen : rs.length ≤ env.fresh.length) :
    reconcile rs (reconcile rs env) = reconcile rs env :=
  reconcile_idem rs env hN hMs hTasks hFrN hFrTw hLen

/-- Witness for the amended C5 at a concrete input that creates one task and
updates another on the first run. -/
theorem C5_amended_witness :
    (([⟨"r", "t", none, none, none, false, some "5", none, false, none, none, none⟩,
      ⟨"r0", "t0", none, none, none, false, some "7", none, false, none, none, none⟩] :
        List Reminder).map (fun r => r.identifier)).Nodup ∧
    (([⟨"u0", "r0", "", "3"⟩] : List SyncMapping).map (fun m => m.uuid)).Nodup ∧
    (∀ m ∈ ([⟨"u0", "r0", "", "3"⟩] : List SyncMapping),
      (tw_get [⟨"u0", "d0", none, none, none, [], "pending", none, some "r0",
        none, none, none⟩] m.uuid).isSome = true) ∧
    (["f1", "f2"] : List String).Nodup ∧
    (∀ u ∈ (["f1", "f2"] : List String),
      tw_get [⟨"u0", "d0", none, none, none, [], "pending", none, some "r0",
        none, none, none⟩] u = none) ∧
    reconcile
      [⟨"r", "t", none, none, none, false, some "5", none, false, none, none, none⟩,
       ⟨"r0", "t0", none, none, none, false, some "7", none, false, none, none, none⟩]
      (reconcile
        [⟨"r", "t", none, none, none, false, some "5", none, false, none, none, none⟩,
         ⟨"r0", "t0", none, none, none, false, some "7", none, false, none, none, none⟩]
        ⟨[⟨"u0", "d0", none, none, none, [], "pending", none, some "r0", none, none, none⟩],
          [⟨"u0", "r0", "", "3"⟩], ["f1", "f2"]⟩) =
      reconcile
        [⟨"r", "t", none, none, none, false, some "5", none, false, none, none, none⟩,
         ⟨"r0", "t0", none, none, none, false, some "7", none, false, none, none, none⟩]
        ⟨[⟨"u0", "d0", none, none, none, [], "pending", none, some "r0", none, none, none⟩],
          [⟨"u0", "r0", "", "3"⟩], ["f1", "f2"]⟩ :=
  ⟨by decide, by decide, by decide, by decide, by decide,
    C5_amended_idempotent _ _ (by decide) (by decide) (by decide) (by decide)
      (by decide) (by decide)⟩

/-- Counterexample to C6: on a successful create for a task with no remote
identifier, the stored Mapping's remote fingerprint is the empty string, not
a value from the just-created state. -/
theorem C6_counterexample :
    get_by_uuid (on_add_main
      ⟨"U", some "x", none, none, some "pending", none,
        some "2024-06-01T10:00:00", some "2024-06-01T09:00:00"⟩
      (some "R") []).fst "U" =
      some ⟨"U", "R", "2024-06-01T10:00:00", ""⟩ := by
  decide

/-- C6 amended: when the on-add hook runs for a record with no (truthy)
remote identifier and the create call returns a truthy (non-empty)
identifier, a Mapping is stored whose local fingerprint is the record's
modified field (falling back to its entry field, then to the empty string)
and whose remote fingerprint is always the empty string; the record is
returned carrying the new remote identifier. -/
theorem C6_amended_fingerprints (task : HookTask) (rid : String)
    (state : List SyncMapping)
    (h : truthy task.reminder_id = false)
    (hrid : (rid == "") = false) :
    on_add_main task (some rid) state =
      (set_mapping state
        { uuid := task.uuid, reminder_id := rid
          tw_modified := task.modified.getD (task.entry.getD "")
          reminder_modified := "" },
       { task with reminder_id := some rid }) := by
  rw [on_add_main, if_neg (by rw [h]; simp)]
  dsimp only
  rw [if_neg (by rw [hrid]; simp)]
  rfl

/-- Witness for the amended C6 at a concrete input. -/
theorem C6_amended_witness :
    truthy (none : Option String) = false ∧
    (("R" : String) == "") = false ∧
    on_add_main
      ⟨"U", some "x", none, none, some "pending", none,
        some "2024-06-01T10:00:00", some "2024-06-01T09:00:00"⟩
      (some "R") [] =
      (set_mapping [] ⟨"U", "R", "2024-06-01T10:00:00", ""⟩,
       ⟨"U", some "x", none, none, some "pending", some "R",
        some "2024-06-01T10:00:00", some "2024-06-01T09:00:00"⟩) :=
  ⟨by decide, by decide,
    C6_amended_fingerprints
      ⟨"U", some "x", none, none, some "pending", none,
        some "2024-06-01T10:00:00", some "2024-06-01T09:00:00"⟩
      "R" [] (by decide) (by decide)⟩

/-- C7: the on-modify update payload contains exactly the changed fields
among title, priority and due date, the completion boolean appears exactly
on a completion transition, no remote call is made when nothing changed, and
changing only the due date yields a payload with the due-date field and no
other mutable field. -/
theorem C7_minimal_diff_update (rid : String) (task original : HookTask) :
    ((update_data rid task original).map Prod.fst).contains "title" =
      (task.description != original.description) ∧
    ((update_data rid task original).map Prod.fst).contains "priority" =
      (task.priority != original.priority) ∧
    ((update_data rid task original).map Prod.fst).contains "due_date" =
      (task.due != original.due) ∧
    ((update_data rid task original).map Prod.fst).contains "is_completed" =
      ((task.status == some "completed") != (original.status == some "completed")) ∧
    (update_reminder_call rid task original = none ↔
      task.description = original.description ∧ task.priority = original.priority ∧
      task.due = original.due ∧
      (task.status == some "completed") = (original.status == some "completed")) ∧
    (task.description = original.description → task.priority = original.priority →
      (task.status == some "completed") = (original.status == some "completed") →
      task.due ≠ original.due →
      update_data rid task original =
        [("identifier", JVal.s rid), ("due_date", JVal.s (task.due.getD ""))]) := by
  cases hc1 : task.description != original.description <;>
  cases hc2 : task.priority != original.priority <;>
  cases hc3 : task.due != original.due <;>
  cases hb1 : task.status == some "completed" <;>
  cases hb2 : original.status == some "completed" <;>
    simp_all [update_data, update_reminder_call, List.contains, bne_iff_ne]

/-- Witness for C7 at a concrete input where only the due date changed. -/
theorem C7_witness :
    update_data "R"
      ⟨"U", some "a", some "H", some "2024-01-02", some "pending", none, none, none⟩
      ⟨"U", some "a", some "H", some "2024-01-01", some "pending", none, none, none⟩ =
      [("identifier", JVal.s "R"), ("due_date", JVal.s "2024-01-02")] :=
  (C7_minimal_diff_update "R"
    ⟨"U", some "a", some "H", some "2024-01-02", some "pending", none, none, none⟩
    ⟨"U", some "a", some "H", some "2024-01-01", some "pending", none, none, none⟩).2.2.2.2.2
    rfl rfl rfl (by decide)

/-- C9: loading the sync state treats a missing file as an empty mapping
table, while a malformed file is a fatal error and is never treated as an
empty (or any) table. -/
theorem C9_missing_empty_malformed_fatal :
    state_load StateFileContent.missing = Except.ok ⟨[]⟩ ∧
    state_load StateFileContent.malformed = Except.error "malformed" ∧
    ∀ d : StateData, state_load StateFileContent.malformed ≠ Except.ok d := by
  refine ⟨rfl, rfl, ?_⟩
  intro d h
  simp [state_load, load_json] at h

/-- C10: a snapshot record with an existing Mapping and a present local task
but no modificationDate field is always skipped: the missing field defaults
to the empty string, which compares as not strictly greater than any stored
fingerprint, so no state changes. -/
theorem C10_missing_modification_date_skipped (r : Reminder) (env : Env)
    (m : SyncMapping) (t : Task)
    (hm : get_by_reminder_id env.ms r.identifier = some m)
    (ht : tw_get env.tw m.uuid = some t)
    (hmod : r.modificationDate = none) :
    sync_reminder_to_task r env = env := by
  apply sync_skip_stale hm ht
  rw [hmod]
  exact pyStrLe_empty _

/-- Witness for C10 at a concrete input without a modification date. -/
theorem C10_witness :
    get_by_reminder_id [⟨"u", "r", "", ""⟩] "r" = some ⟨"u", "r", "", ""⟩ ∧
    tw_get [⟨"u", "d", none, none, none, [], "pending", none, some "r",
      none, none, none⟩] "u" =
      some ⟨"u", "d", none, none, none, [], "pending", none, some "r",
        none, none, none⟩ ∧
    sync_reminder_to_task
      ⟨"r", "newer title", none, none, none, false, none, none, false, none, none, none⟩
      ⟨[⟨"u", "d", none, none, none, [], "pending", none, some "r", none, none, none⟩],
        [⟨"u", "r", "", ""⟩], []⟩ =
      ⟨[⟨"u", "d", none, none, none, [], "pending", none, some "r", none, none, none⟩],
        [⟨"u", "r", "", ""⟩], []⟩ :=
  ⟨by decide, by decide,
    C10_missing_modification_date_skipped _ _ ⟨"u", "r", "", ""⟩
      ⟨"u", "d", none, none, none, [], "pending", none, some "r", none, none, none⟩
      (by decide) (by decide) (by decide)⟩

end TWSync
